import Mathlib

/-!
Shallow embedding of the GrowNet kernel specialization registry:
the type code encoder of src/src/utils/type_repr.h, the builder of
src/src/utils/func_constructor.h, and the runtime identifier helpers of
src/kernels/utils/torch_utils.h, together with proofs about them.
-/

deriving instance DecidableEq for Except

namespace GrowNet

/-- Compile-time types that can appear as elements of a specialization
combination. The constructor named other stands for any type for which
type_repr::to_std_type_str has no explicit specialization (for example bool
or char); the primary template is what such a type reaches. -/
inductive CType where
  | float
  | double
  | int
  | longlong
  | uint
  | other
  deriving DecidableEq

/-- Model of type_repr::to_std_type_str (src/src/utils/type_repr.h). The
explicit specializations return the registered code; the primary template
(lines 5-8) compiles for every type and its body throws
std::runtime_error at run time, modeled as Except.error carrying the
exception message. -/
def to_std_type_str : CType → Except String String
  | .double => .ok "d"
  | .float => .ok "f"
  | .int => .ok "i"
  | .longlong => .ok "l"
  | .uint => .ok "ui"
  | .other => .error "no default conversion from type to str"

/-- One element of a combination: either a type, or an integer-literal
wrapper (a type exposing a static value member, detected by
fn_builder::aux::has_value). -/
inductive Param where
  | ty : CType → Param
  | intLit : Int → Param
  deriving DecidableEq

/-- Model of the fn_builder::aux::type_repr overload pair
(func_constructor.h lines 46-54): a parameter with a value member prints
std::to_string of that value, any other parameter goes through
type_repr::to_std_type_str, which may throw. -/
def type_repr_param : Param → Except String String
  | .ty t => to_std_type_str t
  | .intLit n => .ok (toString n)

/-- Model of fn_builder::aux::get_default_str (func_constructor.h lines
56-66): the code of the front parameter concatenated with the string of the
tail, the empty string at the l_end marker. A thrown encoder exception
propagates out. -/
def get_default_str : List Param → Except String String
  | [] => .ok ""
  | p :: rest =>
      match type_repr_param p with
      | .error e => .error e
      | .ok s =>
          match get_default_str rest with
          | .error e => .error e
          | .ok r => .ok (s ++ r)

/-- Model of fn_builder::aux::get_default_id (func_constructor.h lines
68-72): std::hash of std::to_string(ver) concatenated with the default
string of the sequence. std::hash is an unspecified deterministic string
hash, passed in abstractly as the hasher argument. -/
def get_default_id (hasher : String → Nat) (ver : Int) (seq : List Param) :
    Except String Nat :=
  match get_default_str seq with
  | .error e => .error e
  | .ok s => .ok (hasher (toString ver ++ s))

/-- The kernel template Fn handed to FnBuilder. Each instantiation of Fn at
one combination optionally exposes a static get_id member; the trait
fn_builder::aux::has_id_fn (func_constructor.h lines 39-43) detects it at
compile time. The getId field returns some value exactly for the
instantiations exposing the capability, together with the value their
get_id() returns. The function reference of an instantiation is modeled by
the combination that names it: one distinct function per combination. -/
structure KernelTemplate where
  getId : List Param → Option Nat

/-- The fn_ptr value registered for one instantiation: the address of
Fn<args...>::fn is determined by the argument list of the instantiation. -/
abbrev FnPtr := List Param

/-- Model of fn_builder::aux::id_switcher (func_constructor.h lines 86-94):
the true_type overload returns Fn::get_id(), the false_type overload falls
back to get_default_id of the combination. -/
def id_switcher (F : KernelTemplate) (hasher : String → Nat) (ver : Int)
    (comb : List Param) : Except String Nat :=
  match F.getId comb with
  | some g => .ok g
  | none => get_default_id hasher ver comb

/-- Model of the registry map std::map of size_t to fn_ptr, as an
association list whose lookup and insert-or-assign behave like std::map
find and operator[] assignment. -/
abbrev FnMap := List (Nat × FnPtr)

/-- std::map operator[] followed by assignment: replace the value at an
existing key, otherwise add the binding. -/
def mapInsert : FnMap → Nat → FnPtr → FnMap
  | [], k, v => [(k, v)]
  | (k2, v2) :: m, k, v =>
      if k2 = k then (k2, v) :: m else (k2, v2) :: mapInsert m k v

/-- std::map lookup by key. -/
def mapLookup : FnMap → Nat → Option FnPtr
  | [], _ => none
  | (k2, v2) :: m, k => if k2 = k then some v2 else mapLookup m k

/-- The key set of a registry map. -/
def mapKeys (m : FnMap) : List Nat := m.map Prod.fst

/-- Model of fn_builder::aux::BuildFn_::build_func_ (func_constructor.h
lines 96-117): for the front combination compute the identifier through
id_switcher, assign map[id] = address of the instantiated fn, recurse on
the tail; the l_end specialization is a no-op. A thrown encoder exception
escapes build_func_, modeled by returning only the error (no claim
concerns the partially filled map left behind by the C++ exception). -/
def build_func_ (F : KernelTemplate) (hasher : String → Nat) (ver : Int) :
    List (List Param) → FnMap → Except String FnMap
  | [], m => .ok m
  | c :: rest, m =>
      match id_switcher F hasher ver c with
      | .error e => .error e
      | .ok id => build_func_ F hasher ver rest (mapInsert m id c)

/-- boost::mpl::front applied to a type list: the first element. For the
empty sequence front is ill-formed (the empty list node has no item
member), so a class whose member aliases use it fails to compile; this is
modeled by none. -/
def mpl_front {α : Type} : List α → Option α
  | [] => none
  | x :: _ => some x

/-- FnBuilder (func_constructor.h lines 121-134) declares the member
aliases front = mpl::front of Seq, fn_t and fn_ptr. Instantiating the
class, which any call of its static build_fn members requires, therefore
compiles exactly when the combination list has a front element. -/
def FnBuilder_instantiates (seq : List (List Param)) : Bool :=
  (mpl_front seq).isSome

/-- FnBuilder::build_fn(int ver) (func_constructor.h lines 128-132): a
fresh map populated by build_func_. -/
def build_fn (F : KernelTemplate) (hasher : String → Nat) (ver : Int)
    (seq : List (List Param)) : Except String FnMap :=
  build_func_ F hasher ver seq []

/-- FnBuilder::build_fn(map_t and int ver) (func_constructor.h lines
136-138): populate an existing map in place. -/
def build_fn_inplace (F : KernelTemplate) (hasher : String → Nat) (ver : Int)
    (seq : List (List Param)) (m : FnMap) : Except String FnMap :=
  build_func_ F hasher ver seq m

/-- The identifiers of a combination list in list order, each produced by
id_switcher exactly as build_func_ computes them. -/
def comb_ids (F : KernelTemplate) (hasher : String → Nat) (ver : Int) :
    List (List Param) → Except String (List Nat)
  | [] => .ok []
  | c :: rest =>
      match id_switcher F hasher ver c with
      | .error e => .error e
      | .ok i =>
          match comb_ids F hasher ver rest with
          | .error e => .error e
          | .ok is => .ok (i :: is)

/-- Sequential insert-or-assign of a list of bindings, the shape in which
build_func_ fills its map. -/
def insertAll : FnMap → List (Nat × FnPtr) → FnMap
  | m, [] => m
  | m, (k, v) :: rest => insertAll (mapInsert m k v) rest

/-- Torch dtypes reaching get_runtime_type_str. The constructor named
kByte stands for any dtype outside the switch, which falls through to the
string unknown. -/
inductive TorchDtype where
  | kInt
  | kF16
  | kF32
  | kF64
  | kByte
  deriving DecidableEq

/-- Model of type_repr::get_runtime_type_str on torch::Dtype
(src/kernels/utils/torch_utils.h lines 25-37). -/
def get_runtime_type_str : TorchDtype → String
  | .kInt => "i"
  | .kF16 => "h"
  | .kF32 => "f"
  | .kF64 => "d"
  | .kByte => "unknown"

/-- Model of the int overload of type_repr::get_runtime_type_str
(torch_utils.h lines 39-41): std::to_string of the value. -/
def get_runtime_type_str_int (t : Int) : String := toString t

/-- One runtime argument of construct_runtime_id: either a torch dtype or
an int, selected by overload resolution in the C++ source. -/
inductive RArg where
  | dtype : TorchDtype → RArg
  | intArg : Int → RArg
  deriving DecidableEq

/-- Model of type_repr::construct_runtime_str (torch_utils.h lines 43-50):
concatenation of the per-argument runtime codes, empty for no arguments. -/
def construct_runtime_str : List RArg → String
  | [] => ""
  | .dtype t :: rest => get_runtime_type_str t ++ construct_runtime_str rest
  | .intArg n :: rest => get_runtime_type_str_int n ++ construct_runtime_str rest

/-- Model of type_repr::construct_runtime_id (torch_utils.h lines 52-56):
std::hash of std::to_string(ver) concatenated with the runtime string,
with the same abstract hasher as get_default_id, both standing for
std::hash of std::string. -/
def construct_runtime_id (hasher : String → Nat) (ver : Int)
    (args : List RArg) : Nat :=
  hasher (toString ver ++ construct_runtime_str args)

/-- Modelled from the spec (section 4.1): the per-parameter code table in
the words of the specification, for comparison with the source function
type_repr_param. Types carry their fixed registered code, an integer
literal parameter encodes as the decimal string of its value, and a type
without a registered code has no spec-side code. -/
def spec_param_code : Param → Option String
  | .ty .float => some "f"
  | .ty .double => some "d"
  | .ty .int => some "i"
  | .ty .longlong => some "l"
  | .ty .uint => some "ui"
  | .ty .other => none
  | .intLit n => some (toString n)

/-- Spec-side codes of a whole combination, in parameter order. -/
def spec_codes : List Param → Option (List String)
  | [] => some []
  | p :: rest =>
      match spec_param_code p with
      | none => none
      | some s =>
          match spec_codes rest with
          | none => none
          | some cs => some (s :: cs)

/-- Spec-side concatenation of codes in parameter order. -/
def concat_codes : List String → String
  | [] => ""
  | s :: rest => s ++ concat_codes rest

/-- Pairing of one runtime argument with the compile-time parameter it
stands for: torch::kInt with int, torch::kF32 with float, torch::kF64 with
double, and an int argument with the integer literal of the same value. -/
def corresponds : RArg → Param → Bool
  | .dtype .kInt, .ty .int => true
  | .dtype .kF32, .ty .float => true
  | .dtype .kF64, .ty .double => true
  | .intArg n, .intLit m => n == m
  | _, _ => false

/-- Pointwise correspondence of a runtime argument list with a compile-time
parameter list. -/
def corresponds_all : List RArg → List Param → Bool
  | [], [] => true
  | r :: rs, p :: ps => corresponds r p && corresponds_all rs ps
  | _, _ => false

/-- An injective string hash used to instantiate theorems whose statements
quantify over the hasher: the characters of the string read as digits in
base 1114112, shifted by one so that the empty string is distinguishable
from leading code point zero. -/
def strCode : List Char → Nat
  | [] => 0
  | c :: rest => 1 + c.toNat + 1114112 * strCode rest

/-- The injective hash on strings built from strCode. -/
def hasherInj (s : String) : Nat := strCode s.data

theorem string_data_append (s t : String) : (s ++ t).data = s.data ++ t.data := by
  cases s; cases t; rfl

theorem char_toNat_lt (c : Char) : c.toNat < 1114112 := by
  rcases c.valid with h | ⟨_, h⟩ <;>
    simp only [Char.toNat] <;> omega

theorem strCode_injective : ∀ a b : List Char, strCode a = strCode b → a = b := by
  intro a
  induction a with
  | nil =>
    intro b h
    cases b with
    | nil => rfl
    | cons c rest =>
      exfalso
      simp only [strCode] at h
      omega
  | cons c rest ih =>
    intro b h
    cases b with
    | nil =>
      exfalso
      simp only [strCode] at h
      omega
    | cons c2 rest2 =>
      simp only [strCode] at h
      have hc := char_toNat_lt c
      have hc2 := char_toNat_lt c2
      have h1 : c.toNat = c2.toNat ∧ strCode rest = strCode rest2 := by omega
      have hch : c = c2 := Char.eq_of_val_eq (UInt32.toNat.inj h1.1)
      rw [hch, ih rest2 h1.2]

theorem hasherInj_injective : ∀ s t : String, hasherInj s = hasherInj t → s = t := by
  intro s t h
  cases s with
  | mk d1 =>
    cases t with
    | mk d2 =>
      have := strCode_injective d1 d2 h
      simp [this]

theorem type_repr_param_error_msg (p : Param) (e : String)
    (h : type_repr_param p = .error e) :
    e = "no default conversion from type to str" := by
  cases p with
  | ty t =>
    cases t <;> simp [type_repr_param, to_std_type_str] at h
    simp [h]
  | intLit n => simp [type_repr_param] at h

theorem get_default_str_mem_other (comb : List Param)
    (h : Param.ty CType.other ∈ comb) :
    get_default_str comb = .error "no default conversion from type to str" := by
  induction comb with
  | nil => cases h
  | cons p rest ih =>
    rcases List.mem_cons.mp h with hp | hp
    · subst hp
      simp [get_default_str, type_repr_param, to_std_type_str]
    · cases he : type_repr_param p with
      | error e =>
        have := type_repr_param_error_msg p e he
        subst this
        simp [get_default_str, he]
      | ok s =>
        simp [get_default_str, he, ih hp]

theorem spec_param_code_agrees (p : Param) (s : String)
    (h : spec_param_code p = some s) : type_repr_param p = .ok s := by
  cases p with
  | ty t =>
    cases t <;> simp [spec_param_code] at h <;>
      simp [type_repr_param, to_std_type_str, ← h]
  | intLit n =>
    simp [spec_param_code] at h
    simp [type_repr_param, ← h]

theorem spec_codes_sound : ∀ (seq : List Param) (codes : List String),
    spec_codes seq = some codes →
    get_default_str seq = .ok (concat_codes codes) := by
  intro seq
  induction seq with
  | nil =>
    intro codes h
    simp [spec_codes] at h
    subst h
    rfl
  | cons p rest ih =>
    intro codes h
    cases hp : spec_param_code p with
    | none => simp [spec_codes, hp] at h
    | some s =>
      cases hr : spec_codes rest with
      | none => simp [spec_codes, hp, hr] at h
      | some cs =>
        simp [spec_codes, hp, hr] at h
        subst h
        simp [get_default_str, spec_param_code_agrees p s hp, ih cs hr,
          concat_codes]

theorem mapLookup_insert (m : FnMap) (k k2 : Nat) (v : FnPtr) :
    mapLookup (mapInsert m k v) k2 =
      if k2 = k then some v else mapLookup m k2 := by
  induction m with
  | nil =>
    by_cases h : k2 = k
    · simp [mapInsert, mapLookup, h]
    · simp [mapInsert, mapLookup, h, Ne.symm h]
  | cons kv rest ih =>
    obtain ⟨k3, v3⟩ := kv
    by_cases h3 : k3 = k
    · subst h3
      by_cases h : k2 = k3
      · simp [mapInsert, mapLookup, h]
      · simp [mapInsert, mapLookup, h, Ne.symm h]
    · by_cases h : k3 = k2
      · subst h
        simp [mapInsert, mapLookup, h3, Ne.symm h3]
      · simp [mapInsert, mapLookup, h3, h, ih]

theorem mapLookup_none_iff (m : FnMap) (k : Nat) :
    mapLookup m k = none ↔ k ∉ mapKeys m := by
  induction m with
  | nil => simp [mapLookup, mapKeys]
  | cons kv rest ih =>
    obtain ⟨k3, v3⟩ := kv
    by_cases h : k3 = k
    · subst h
      simp [mapLookup, mapKeys]
    · simp [mapLookup, mapKeys, h, Ne.symm h, ih]

theorem mapInsert_fresh (m : FnMap) (k : Nat) (v : FnPtr)
    (h : k ∉ mapKeys m) : mapInsert m k v = m ++ [(k, v)] := by
  induction m with
  | nil => simp [mapInsert]
  | cons kv rest ih =>
    obtain ⟨k3, v3⟩ := kv
    have h1 : ¬ k3 = k := by
      intro he
      exact h (by simp [mapKeys, he])
    have h2 : k ∉ mapKeys rest := by
      intro he
      apply h
      simp [mapKeys] at he ⊢
      exact Or.inr he
    simp [mapInsert, h1, ih h2]

theorem insertAll_lookup_not_mem :
    ∀ (l : List (Nat × FnPtr)) (m : FnMap) (k : Nat),
      k ∉ l.map Prod.fst →
      mapLookup (insertAll m l) k = mapLookup m k := by
  intro l
  induction l with
  | nil =>
    intro m k _
    rfl
  | cons kv rest ih =>
    intro m k h
    obtain ⟨k2, v2⟩ := kv
    simp only [List.map_cons, List.mem_cons] at h
    push_neg at h
    have hstep : insertAll m ((k2, v2) :: rest)
        = insertAll (mapInsert m k2 v2) rest := rfl
    rw [hstep, ih _ _ h.2, mapLookup_insert]
    simp [h.1]

theorem insertAll_lookup_mem :
    ∀ (l : List (Nat × FnPtr)) (m : FnMap) (k : Nat) (v : FnPtr),
      (l.map Prod.fst).Nodup → (k, v) ∈ l →
      mapLookup (insertAll m l) k = some v := by
  intro l
  induction l with
  | nil =>
    intro m k v _ hmem
    cases hmem
  | cons kv rest ih =>
    intro m k v hnd hmem
    obtain ⟨k2, v2⟩ := kv
    simp only [List.map_cons, List.nodup_cons] at hnd
    rcases List.mem_cons.mp hmem with he | he
    · cases he
      have hstep : insertAll m ((k, v) :: rest)
          = insertAll (mapInsert m k v) rest := rfl
      rw [hstep, insertAll_lookup_not_mem rest _ k hnd.1, mapLookup_insert]
      simp
    · exact ih _ _ _ hnd.2 he

theorem insertAll_keys_mem :
    ∀ (l : List (Nat × FnPtr)) (m : FnMap) (k : Nat),
      k ∈ mapKeys (insertAll m l) →
      k ∈ mapKeys m ∨ k ∈ l.map Prod.fst := by
  intro l m k h
  by_cases hl : k ∈ l.map Prod.fst
  · exact Or.inr hl
  · left
    have hfr := insertAll_lookup_not_mem l m k hl
    by_contra hm
    have h1 : mapLookup m k = none := (mapLookup_none_iff m k).mpr hm
    have h2 : mapLookup (insertAll m l) k = none := hfr.trans h1
    exact ((mapLookup_none_iff _ k).mp h2) h

theorem insertAll_fresh :
    ∀ (l : List (Nat × FnPtr)) (m : FnMap),
      (l.map Prod.fst).Nodup →
      (∀ k ∈ l.map Prod.fst, k ∉ mapKeys m) →
      insertAll m l = m ++ l := by
  intro l
  induction l with
  | nil =>
    intro m _ _
    simp [insertAll]
  | cons kv rest ih =>
    intro m hnd hf
    obtain ⟨k2, v2⟩ := kv
    simp only [List.map_cons, List.nodup_cons] at hnd
    have hf1 : k2 ∉ mapKeys m := hf k2 (by simp)
    have hstep : insertAll m ((k2, v2) :: rest)
        = insertAll (mapInsert m k2 v2) rest := rfl
    rw [hstep, mapInsert_fresh m k2 v2 hf1, ih (m ++ [(k2, v2)]) hnd.2]
    · simp
    · intro k hk
      have hkm : k ∉ mapKeys m := hf k (List.mem_cons_of_mem _ hk)
      have hk2 : k ≠ k2 := fun he => hnd.1 (he ▸ hk)
      intro hmem
      rw [mapKeys, List.map_append] at hmem
      rcases List.mem_append.mp hmem with h | h
      · exact hkm h
      · simp at h
        exact hk2 h

theorem comb_ids_length (F : KernelTemplate) (hasher : String → Nat)
    (ver : Int) :
    ∀ (seq : List (List Param)) (ids : List Nat),
      comb_ids F hasher ver seq = .ok ids → ids.length = seq.length := by
  intro seq
  induction seq with
  | nil =>
    intro ids h
    simp [comb_ids] at h
    simp [← h]
  | cons c rest ih =>
    intro ids h
    cases hi : id_switcher F hasher ver c with
    | error e => simp [comb_ids, hi] at h
    | ok i =>
      cases hr : comb_ids F hasher ver rest with
      | error e => simp [comb_ids, hi, hr] at h
      | ok is =>
        simp [comb_ids, hi, hr] at h
        subst h
        simp [ih is hr]

theorem build_func_eq_insertAll (F : KernelTemplate) (hasher : String → Nat)
    (ver : Int) :
    ∀ (seq : List (List Param)) (ids : List Nat) (m : FnMap),
      comb_ids F hasher ver seq = .ok ids →
      build_func_ F hasher ver seq m = .ok (insertAll m (ids.zip seq)) := by
  intro seq
  induction seq with
  | nil =>
    intro ids m h
    simp [comb_ids] at h
    subst h
    rfl
  | cons c rest ih =>
    intro ids m h
    cases hi : id_switcher F hasher ver c with
    | error e => simp [comb_ids, hi] at h
    | ok i =>
      cases hr : comb_ids F hasher ver rest with
      | error e => simp [comb_ids, hi, hr] at h
      | ok is =>
        simp [comb_ids, hi, hr] at h
        subst h
        simp only [build_func_, hi]
        rw [ih is (mapInsert m i c) hr]
        rfl

theorem mapLookup_of_mem_nodup :
    ∀ (m : FnMap) (k : Nat) (v : FnPtr),
      (mapKeys m).Nodup → (k, v) ∈ m → mapLookup m k = some v := by
  intro m
  induction m with
  | nil =>
    intro k v _ hmem
    cases hmem
  | cons kv rest ih =>
    intro k v hnd hmem
    obtain ⟨k2, v2⟩ := kv
    simp only [mapKeys, List.map_cons, List.nodup_cons] at hnd
    rcases List.mem_cons.mp hmem with he | he
    · cases he
      simp [mapLookup]
    · have hk : k ≠ k2 := by
        intro heq
        subst heq
        exact hnd.1 (List.mem_map_of_mem Prod.fst he)
      simp [mapLookup, Ne.symm hk]
      exact ih k v hnd.2 he

theorem comb_ids_default_mem (F : KernelTemplate) (hasher : String → Nat)
    (ver : Int) :
    ∀ (seq : List (List Param)) (ids : List Nat),
      (∀ c ∈ seq, F.getId c = none) →
      comb_ids F hasher ver seq = .ok ids →
      ∀ i ∈ ids, ∃ c ∈ seq, ∃ s, get_default_str c = .ok s ∧
        i = hasher (toString ver ++ s) := by
  intro seq
  induction seq with
  | nil =>
    intro ids _ h i hi
    simp [comb_ids] at h
    subst h
    cases hi
  | cons c rest ih =>
    intro ids hnc h i hi
    cases hid : id_switcher F hasher ver c with
    | error e => simp [comb_ids, hid] at h
    | ok j =>
      cases hr : comb_ids F hasher ver rest with
      | error e => simp [comb_ids, hid, hr] at h
      | ok is =>
        simp [comb_ids, hid, hr] at h
        subst h
        rcases List.mem_cons.mp hi with he | he
        · subst he
          have hg : F.getId c = none := hnc c (List.mem_cons_self c rest)
          rw [id_switcher, hg] at hid
          cases hs : get_default_str c with
          | error e => rw [get_default_id, hs] at hid; cases hid
          | ok s =>
            rw [get_default_id, hs] at hid
            refine ⟨c, List.mem_cons_self c rest, s, hs, ?_⟩
            cases hid
            rfl
        · obtain ⟨c2, hc2, s, hs, he2⟩ :=
            ih is (fun d hd => hnc d (List.mem_cons_of_mem c hd)) hr i he
          exact ⟨c2, List.mem_cons_of_mem c hc2, s, hs, he2⟩

theorem version_prefix_ne (s t : String) : ("1" ++ s) ≠ ("2" ++ t) := by
  intro h
  have hd := congrArg String.data h
  rw [string_data_append, string_data_append] at hd
  have h1 : ("1" : String).data = ['1'] := rfl
  have h2 : ("2" : String).data = ['2'] := rfl
  rw [h1, h2] at hd
  simp at hd

theorem corresponds_head (r : RArg) (p : Param) (h : corresponds r p = true) :
    type_repr_param p = .ok (match r with
      | .dtype t => get_runtime_type_str t
      | .intArg n => get_runtime_type_str_int n) := by
  cases r with
  | dtype t =>
    cases p with
    | ty ct =>
      cases t <;> cases ct <;> simp [corresponds] at h <;>
        simp [type_repr_param, to_std_type_str, get_runtime_type_str]
    | intLit n =>
      cases t <;> simp [corresponds] at h
  | intArg n =>
    cases p with
    | ty ct =>
      cases ct <;> simp [corresponds] at h
    | intLit m =>
      simp [corresponds] at h
      simp [type_repr_param, get_runtime_type_str_int, h]

theorem corresponds_all_str :
    ∀ (rargs : List RArg) (params : List Param),
      corresponds_all rargs params = true →
      get_default_str params = .ok (construct_runtime_str rargs) := by
  intro rargs
  induction rargs with
  | nil =>
    intro params h
    cases params with
    | nil => rfl
    | cons p ps => simp [corresponds_all] at h
  | cons r rs ih =>
    intro params h
    cases params with
    | nil => simp [corresponds_all] at h
    | cons p ps =>
      simp only [corresponds_all, Bool.and_eq_true] at h
      have hh := corresponds_head r p h.1
      have ht := ih ps h.2
      cases r with
      | dtype t =>
        simp [get_default_str, hh, ht, construct_runtime_str]
      | intArg n =>
        simp [get_default_str, hh, ht, construct_runtime_str]

/-- C8: the type signature encoders assign the fixed codes f, d, i to
32-bit float, 64-bit float and 32-bit int (both the compile-time and the
runtime encoder, which agree on their shared types), assign h to 16-bit
float in the runtime encoder, and are injective over their supported type
sets: every pair of distinct supported types receives distinct codes. -/
theorem encoder_codes_and_injectivity :
    get_runtime_type_str .kF32 = "f" ∧ get_runtime_type_str .kF64 = "d"
    ∧ get_runtime_type_str .kInt = "i" ∧ get_runtime_type_str .kF16 = "h"
    ∧ to_std_type_str .float = .ok "f" ∧ to_std_type_str .double = .ok "d"
    ∧ to_std_type_str .int = .ok "i" ∧ to_std_type_str .longlong = .ok "l"
    ∧ to_std_type_str .uint = .ok "ui"
    ∧ get_runtime_type_str .kInt ≠ get_runtime_type_str .kF16
    ∧ get_runtime_type_str .kInt ≠ get_runtime_type_str .kF32
    ∧ get_runtime_type_str .kInt ≠ get_runtime_type_str .kF64
    ∧ get_runtime_type_str .kF16 ≠ get_runtime_type_str .kF32
    ∧ get_runtime_type_str .kF16 ≠ get_runtime_type_str .kF64
    ∧ get_runtime_type_str .kF32 ≠ get_runtime_type_str .kF64
    ∧ to_std_type_str .float ≠ to_std_type_str .double
    ∧ to_std_type_str .float ≠ to_std_type_str .int
    ∧ to_std_type_str .float ≠ to_std_type_str .longlong
    ∧ to_std_type_str .float ≠ to_std_type_str .uint
    ∧ to_std_type_str .double ≠ to_std_type_str .int
    ∧ to_std_type_str .double ≠ to_std_type_str .longlong
    ∧ to_std_type_str .double ≠ to_std_type_str .uint
    ∧ to_std_type_str .int ≠ to_std_type_str .longlong
    ∧ to_std_type_str .int ≠ to_std_type_str .uint
    ∧ to_std_type_str .longlong ≠ to_std_type_str .uint
    ∧ to_std_type_str .int = .ok (get_runtime_type_str .kInt)
    ∧ to_std_type_str .float = .ok (get_runtime_type_str .kF32)
    ∧ to_std_type_str .double = .ok (get_runtime_type_str .kF64) := by
  decide

/-- C5 counterexample: the claim that build succeeds on the empty
combination list fails, because FnBuilder cannot be instantiated for an
empty sequence: its front member alias applies mpl::front, undefined on
the empty list, so no build_fn overload is callable there. -/
theorem empty_list_builder_cex :
    FnBuilder_instantiates ([] : List (List Param)) = false
    ∧ mpl_front ([] : List (List Param)) = none :=
  ⟨rfl, rfl⟩

/-- C5 amended: the walker itself treats the empty list as a no-op that
leaves the map unchanged, so an empty list would yield an empty mapping,
but FnBuilder, whose member aliases require a front combination, does not
compile for the empty combination list; build(version) on the empty list
is a compile-time failure, not a successful empty registry. -/
theorem empty_list_walker_noop (F : KernelTemplate) (hasher : String → Nat)
    (ver : Int) (m : FnMap) :
    build_func_ F hasher ver [] m = .ok m
    ∧ build_func_ F hasher ver [] [] = .ok ([] : FnMap)
    ∧ FnBuilder_instantiates ([] : List (List Param)) = false :=
  ⟨rfl, rfl, rfl⟩

/-- C1 counterexample: two distinct combinations sharing the explicit
custom identifier 42 do not make registry construction fail; build_fn
returns a one-entry mapping in which the later combination has silently
overwritten the earlier one. -/
theorem collision_overwrite_cex :
    build_fn ⟨fun _ => some 42⟩ String.length 0
        [[Param.ty CType.float], [Param.ty CType.double]]
      = .ok [(42, [Param.ty CType.double])] :=
  rfl

/-- C1 amended: when two combinations resolve to the same signature
identifier under one version, build_fn does not detect the collision: it
succeeds, and the later combination silently overwrites the earlier one at
that identifier, leaving a mapping one entry short. -/
theorem collision_later_overwrites (F : KernelTemplate)
    (hasher : String → Nat) (ver : Int) (c1 c2 : List Param) (i : Nat)
    (h1 : id_switcher F hasher ver c1 = .ok i)
    (h2 : id_switcher F hasher ver c2 = .ok i) :
    build_fn F hasher ver [c1, c2] = .ok [(i, c2)] := by
  simp [build_fn, build_func_, h1, h2, mapInsert]

theorem collision_later_overwrites_witness :
    id_switcher ⟨fun _ => some 42⟩ String.length 0 [Param.ty CType.float]
      = .ok 42
    ∧ id_switcher ⟨fun _ => some 42⟩ String.length 0 [Param.ty CType.int]
      = .ok 42
    ∧ build_fn ⟨fun _ => some 42⟩ String.length 0
        [[Param.ty CType.float], [Param.ty CType.int]]
      = .ok [(42, [Param.ty CType.int])] :=
  ⟨rfl, rfl, collision_later_overwrites _ _ _ _ _ _ rfl rfl⟩

/-- C2 counterexample: a type with no registered code is not rejected at
compile time; the encoder primary template compiles and its throw fires
when the registry is built, so the failure surfaces only at run time
during registry construction. -/
theorem unknown_type_runtime_error_cex :
    to_std_type_str CType.other
      = .error "no default conversion from type to str"
    ∧ build_fn ⟨fun _ => none⟩ String.length 0 [[Param.ty CType.other]]
      = .error "no default conversion from type to str" :=
  ⟨rfl, rfl⟩

/-- C2 amended: a combination containing a type with no registered code is
accepted by the compiler; when the registry is built and the combination
does not carry a custom identifier, the encoder throw aborts construction
at run time with the runtime_error message of the primary template. -/
theorem unknown_type_error_at_registry_build (F : KernelTemplate)
    (hasher : String → Nat) (ver : Int) (comb : List Param)
    (rest : List (List Param)) (m : FnMap)
    (h1 : Param.ty CType.other ∈ comb)
    (h2 : F.getId comb = none) :
    build_func_ F hasher ver (comb :: rest) m
      = .error "no default conversion from type to str" := by
  have hs := get_default_str_mem_other comb h1
  simp [build_func_, id_switcher, h2, get_default_id, hs]

theorem unknown_type_error_at_registry_build_witness :
    Param.ty CType.other ∈ [Param.ty CType.other]
    ∧ (⟨fun _ => none⟩ : KernelTemplate).getId [Param.ty CType.other] = none
    ∧ build_func_ ⟨fun _ => none⟩ String.length 0 [[Param.ty CType.other]] []
      = .error "no default conversion from type to str" :=
  ⟨List.mem_singleton.mpr rfl, rfl,
   unknown_type_error_at_registry_build _ _ _ _ _ _
     (List.mem_singleton.mpr rfl) rfl⟩

/-- C3: for every version and every combination whose parameters all have
spec-side codes, the default identifier equals the hash of the decimal
representation of the version concatenated with the codes of the
parameters in parameter order, an integer literal contributing the decimal
string of its value; in particular at version 0 the single-type
combinations float, double and int receive the hashes of 0f, 0d and 0i. -/
theorem default_id_hashes_version_and_codes (hasher : String → Nat)
    (ver : Int) (seq : List Param) (codes : List String)
    (h : spec_codes seq = some codes) :
    get_default_id hasher ver seq
      = .ok (hasher (toString ver ++ concat_codes codes))
    ∧ get_default_id hasher 0 [Param.ty CType.float] = .ok (hasher "0f")
    ∧ get_default_id hasher 0 [Param.ty CType.double] = .ok (hasher "0d")
    ∧ get_default_id hasher 0 [Param.ty CType.int] = .ok (hasher "0i") := by
  refine ⟨?_, rfl, rfl, rfl⟩
  rw [get_default_id, spec_codes_sound seq codes h]

theorem default_id_hashes_version_and_codes_witness :
    spec_codes [Param.ty CType.float, Param.intLit 12] = some ["f", "12"]
    ∧ get_default_id String.length 5 [Param.ty CType.float, Param.intLit 12]
      = .ok (String.length (toString (5 : Int) ++ concat_codes ["f", "12"])) :=
  ⟨rfl,
   (default_id_hashes_version_and_codes String.length 5
     [Param.ty CType.float, Param.intLit 12] ["f", "12"] rfl).1⟩

/-- C4: a kernel specialization exposing the get_id capability is
registered under the value get_id returns: id_switcher selects that value,
the one-combination registry binds exactly the key get_id returned, and
the would-be hashed default identifier, when different from the custom
one, is absent from the mapping. -/
theorem custom_id_used_exclusively (F : KernelTemplate)
    (hasher : String → Nat) (ver : Int) (c : List Param) (g d : Nat)
    (h1 : F.getId c = some g)
    (h2 : get_default_id hasher ver c = .ok d)
    (h3 : g ≠ d) :
    id_switcher F hasher ver c = .ok g
    ∧ build_fn F hasher ver [c] = .ok [(g, c)]
    ∧ mapLookup [(g, c)] d = none
    ∧ mapKeys [(g, c)] = [g] := by
  have hs : id_switcher F hasher ver c = .ok g := by
    simp [id_switcher, h1]
  refine ⟨hs, ?_, ?_, rfl⟩
  · simp [build_fn, build_func_, hs, mapInsert]
  · simp [mapLookup, h3]

theorem custom_id_used_exclusively_witness :
    (⟨fun _ => some 5⟩ : KernelTemplate).getId [Param.ty CType.float] = some 5
    ∧ get_default_id String.length 0 [Param.ty CType.float] = .ok 2
    ∧ (5 : Nat) ≠ 2
    ∧ (id_switcher ⟨fun _ => some 5⟩ String.length 0 [Param.ty CType.float]
        = .ok 5
       ∧ build_fn ⟨fun _ => some 5⟩ String.length 0 [[Param.ty CType.float]]
        = .ok [(5, [Param.ty CType.float])]
       ∧ mapLookup [(5, [Param.ty CType.float])] 2 = none
       ∧ mapKeys [(5, [Param.ty CType.float])] = [5]) :=
  ⟨rfl, rfl, by decide,
   custom_id_used_exclusively _ _ _ _ _ _ rfl rfl (by decide)⟩

/-- C6: over a combination list whose identifiers are pairwise distinct,
build_fn succeeds and returns the mapping that pairs the identifiers with
their combinations in list order: exactly one entry per combination, each
combination visited once, and every identifier looked up in the result
yields the function of exactly its combination. -/
theorem build_one_entry_per_combination (F : KernelTemplate)
    (hasher : String → Nat) (ver : Int) (seq : List (List Param))
    (ids : List Nat)
    (h1 : comb_ids F hasher ver seq = .ok ids)
    (h2 : ids.Nodup) :
    build_fn F hasher ver seq = .ok (ids.zip seq)
    ∧ (ids.zip seq).length = seq.length
    ∧ ∀ i c, (i, c) ∈ ids.zip seq → mapLookup (ids.zip seq) i = some c := by
  have hlen : ids.length = seq.length := comb_ids_length F hasher ver seq ids h1
  have hfst : (ids.zip seq).map Prod.fst = ids :=
    List.map_fst_zip ids seq (le_of_eq hlen)
  have hni : ((ids.zip seq).map Prod.fst).Nodup := by
    rw [hfst]
    exact h2
  refine ⟨?_, ?_, ?_⟩
  · rw [build_fn, build_func_eq_insertAll F hasher ver seq ids [] h1,
      insertAll_fresh (ids.zip seq) [] hni
        (by intro k _; simp [mapKeys])]
    simp
  · simp [List.length_zip, hlen]
  · intro i c hm
    exact mapLookup_of_mem_nodup (ids.zip seq) i c hni hm

theorem build_one_entry_per_combination_witness :
    build_fn ⟨fun _ => none⟩ String.length 0
        [[Param.ty CType.float], [Param.ty CType.double, Param.ty CType.int]]
      = .ok [(2, [Param.ty CType.float]),
             (3, [Param.ty CType.double, Param.ty CType.int])] :=
  (build_one_entry_per_combination ⟨fun _ => none⟩ String.length 0
    [[Param.ty CType.float], [Param.ty CType.double, Param.ty CType.int]]
    [2, 3] rfl (by decide)).1

/-- C9: the in-place build_fn adds the entries of the combination list to
the given mapping: every key outside the list identifiers keeps its
previous lookup result, each identifier of the list maps to the function
of its combination, and no key outside the previous mapping and the list
identifiers appears. -/
theorem build_inplace_frame (F : KernelTemplate) (hasher : String → Nat)
    (ver : Int) (seq : List (List Param)) (m m2 : FnMap) (ids : List Nat)
    (h1 : comb_ids F hasher ver seq = .ok ids)
    (h2 : ids.Nodup)
    (hb : build_fn_inplace F hasher ver seq m = .ok m2) :
    (∀ k, k ∉ ids → mapLookup m2 k = mapLookup m k)
    ∧ (∀ i c, (i, c) ∈ ids.zip seq → mapLookup m2 i = some c)
    ∧ (∀ k, k ∈ mapKeys m2 → k ∈ mapKeys m ∨ k ∈ ids) := by
  have hlen := comb_ids_length F hasher ver seq ids h1
  have hfst : (ids.zip seq).map Prod.fst = ids :=
    List.map_fst_zip ids seq (le_of_eq hlen)
  have hm2 : m2 = insertAll m (ids.zip seq) :=
    Except.ok.inj
      ((build_func_eq_insertAll F hasher ver seq ids m h1).symm.trans hb).symm
  subst hm2
  refine ⟨?_, ?_, ?_⟩
  · intro k hk
    exact insertAll_lookup_not_mem _ m k (by rw [hfst]; exact hk)
  · intro i c hm
    exact insertAll_lookup_mem _ m i c (by rw [hfst]; exact h2) hm
  · intro k hk
    have hh := insertAll_keys_mem (ids.zip seq) m k hk
    rwa [hfst] at hh

theorem build_inplace_frame_witness :
    mapLookup [(99, [Param.intLit 7]), (2, [Param.ty CType.float])] 99
      = mapLookup [(99, [Param.intLit 7])] 99
    ∧ mapLookup [(99, [Param.intLit 7]), (2, [Param.ty CType.float])] 2
      = some [Param.ty CType.float] :=
  have h := build_inplace_frame ⟨fun _ => none⟩ String.length 0
    [[Param.ty CType.float]] [(99, [Param.intLit 7])]
    [(99, [Param.intLit 7]), (2, [Param.ty CType.float])] [2]
    rfl (by decide) rfl
  ⟨h.1 99 (by decide), h.2.1 2 [Param.ty CType.float] (by decide)⟩

/-- C7 counterexample: over a combination list whose kernel supplies the
custom identifier 7, build(1) and build(2) return mappings with the same
single key 7, so their identifier sets are not disjoint, and no hash
collision on distinct input strings is involved since the hasher is never
consulted for a custom identifier. -/
theorem version_overlap_custom_id_cex :
    build_fn ⟨fun _ => some 7⟩ hasherInj 1 [[Param.ty CType.float]]
      = .ok [(7, [Param.ty CType.float])]
    ∧ build_fn ⟨fun _ => some 7⟩ hasherInj 2 [[Param.ty CType.float]]
      = .ok [(7, [Param.ty CType.float])]
    ∧ mapKeys [(7, [Param.ty CType.float])] = [7] :=
  ⟨rfl, rfl, rfl⟩

/-- C7 amended: for a combination list in which no kernel supplies a
custom identifier, and an injective hasher, build(1) and build(2) produce
mappings with disjoint key sets: every derived identifier of build(1)
hashes a string starting with the character 1 and every derived identifier
of build(2) a string starting with the character 2. A kernel with a custom
identifier breaks this, since its identifier ignores the version. -/
theorem version_isolation_default_ids (F : KernelTemplate)
    (hasher : String → Nat) (seq : List (List Param)) (ids1 ids2 : List Nat)
    (m1 m2 : FnMap)
    (hinj : ∀ s t : String, hasher s = hasher t → s = t)
    (hnc : ∀ c ∈ seq, F.getId c = none)
    (h1 : comb_ids F hasher 1 seq = .ok ids1)
    (h2 : comb_ids F hasher 2 seq = .ok ids2)
    (b1 : build_fn F hasher 1 seq = .ok m1)
    (b2 : build_fn F hasher 2 seq = .ok m2) :
    mapKeys m1 ∩ mapKeys m2 = [] := by
  rw [List.inter_eq_nil_iff_disjoint]
  intro k hk1 hk2
  have hlen1 := comb_ids_length F hasher 1 seq ids1 h1
  have hlen2 := comb_ids_length F hasher 2 seq ids2 h2
  have hfst1 : (ids1.zip seq).map Prod.fst = ids1 :=
    List.map_fst_zip ids1 seq (le_of_eq hlen1)
  have hfst2 : (ids2.zip seq).map Prod.fst = ids2 :=
    List.map_fst_zip ids2 seq (le_of_eq hlen2)
  have em1 : m1 = insertAll [] (ids1.zip seq) :=
    Except.ok.inj
      ((build_func_eq_insertAll F hasher 1 seq ids1 [] h1).symm.trans b1).symm
  have em2 : m2 = insertAll [] (ids2.zip seq) :=
    Except.ok.inj
      ((build_func_eq_insertAll F hasher 2 seq ids2 [] h2).symm.trans b2).symm
  have hk1i : k ∈ ids1 := by
    rw [em1] at hk1
    rcases insertAll_keys_mem _ _ _ hk1 with h | h
    · simp [mapKeys] at h
    · rwa [hfst1] at h
  have hk2i : k ∈ ids2 := by
    rw [em2] at hk2
    rcases insertAll_keys_mem _ _ _ hk2 with h | h
    · simp [mapKeys] at h
    · rwa [hfst2] at h
  obtain ⟨c1, _, s1, _, he1⟩ :=
    comb_ids_default_mem F hasher 1 seq ids1 hnc h1 k hk1i
  obtain ⟨c2, _, s2, _, he2⟩ :=
    comb_ids_default_mem F hasher 2 seq ids2 hnc h2 k hk2i
  have heq : toString (1 : Int) ++ s1 = toString (2 : Int) ++ s2 :=
    hinj _ _ (he1.symm.trans he2)
  rw [show toString (1 : Int) = "1" from rfl,
    show toString (2 : Int) = "2" from rfl] at heq
  exact version_prefix_ne s1 s2 heq

theorem version_isolation_default_ids_witness :
    mapKeys [(hasherInj "1f", [Param.ty CType.float])]
      ∩ mapKeys [(hasherInj "2f", [Param.ty CType.float])] = [] :=
  version_isolation_default_ids ⟨fun _ => none⟩ hasherInj
    [[Param.ty CType.float]] [hasherInj "1f"] [hasherInj "2f"]
    [(hasherInj "1f", [Param.ty CType.float])]
    [(hasherInj "2f", [Param.ty CType.float])]
    hasherInj_injective (by simp) rfl rfl rfl rfl

/-- C10: the runtime identifier constructor agrees with the compile-time
default identifier: whenever the runtime arguments correspond pointwise to
the compile-time parameters (kInt with int, kF32 with float, kF64 with
double, an int argument with the integer literal of the same value),
construct_runtime_id returns exactly the identifier get_default_id
derives, both hashing the decimal version string concatenated with the
same per-parameter codes. -/
theorem runtime_id_refines_default_id (hasher : String → Nat) (ver : Int)
    (rargs : List RArg) (params : List Param)
    (h : corresponds_all rargs params = true) :
    get_default_id hasher ver params
      = .ok (construct_runtime_id hasher ver rargs) := by
  rw [get_default_id, corresponds_all_str rargs params h]
  rfl

theorem runtime_id_refines_default_id_witness :
    corresponds_all
        [RArg.dtype TorchDtype.kInt, RArg.dtype TorchDtype.kF32,
         RArg.dtype TorchDtype.kF64, RArg.intArg 4]
        [Param.ty CType.int, Param.ty CType.float, Param.ty CType.double,
         Param.intLit 4] = true
    ∧ get_default_id String.length 3
        [Param.ty CType.int, Param.ty CType.float, Param.ty CType.double,
         Param.intLit 4]
      = .ok (construct_runtime_id String.length 3
          [RArg.dtype TorchDtype.kInt, RArg.dtype TorchDtype.kF32,
           RArg.dtype TorchDtype.kF64, RArg.intArg 4]) :=
  ⟨by decide,
   runtime_id_refines_default_id String.length 3 _ _ (by decide)⟩

end GrowNet
